import Mathlib

/-!
Verification of the sizing core of the guia-tabela-medidas application
(`src/logic.py`): the reference size chart, the height-band classifier
`classify_estatura`, the weighted-distance scorer `score_sizes`, and the
wrapper `suggest_size_and_top`.

Modelling conventions.
Python floats are modelled by exact rationals (`ℚ`).  The code computes
`dist = math.sqrt(db**2 + dw**2 + dh**2)` and uses `dist` only through
order comparisons (the sort key), equality with zero, and sign; since
`Real.sqrt` is strictly monotone on nonnegative reals, every such fact
about `dist` is equivalent to the corresponding fact about the radicand.
Our `ScoredCandidate` therefore stores the exact squared distance
(`dist2`); theorems about the real distance are stated through
`Real.sqrt` applied to `dist2`.
Python `list.sort` is a stable sort; it is modelled by `List.mergeSort`,
which is stable and sorts with the same comparison.
Python `dict` preserves insertion order, so the weight and bin tables are
modelled as association lists in source order, and `dict.get key default`
as `List.lookup` with a default.
-/

open List

/-- A row of the reference size chart (`SIZE_CHART` entry): numeric size
plus reference bust/waist/hip circumferences in centimetres. -/
structure Row where
  size : ℤ
  bust : ℚ
  waist : ℚ
  hip : ℚ
deriving DecidableEq, Repr

/-- `SIZES = list(range(34, 64, 2))`: the 15 numeric sizes 34, 36, …, 62. -/
def SIZES : List ℤ := (List.range 15).map (fun i => 34 + 2 * (i : ℤ))

/-- `BUST_SEQ = [80 + 4*i for i in range(len(SIZES))]`. -/
def BUST_SEQ : List ℚ := (List.range SIZES.length).map (fun i => 80 + 4 * (i : ℚ))

/-- `WAIST_SEQ = [68 + 4*i for i in range(len(SIZES))]`. -/
def WAIST_SEQ : List ℚ := (List.range SIZES.length).map (fun i => 68 + 4 * (i : ℚ))

/-- `HIP_SEQ = [86 + 4*i for i in range(len(SIZES))]`. -/
def HIP_SEQ : List ℚ := (List.range SIZES.length).map (fun i => 86 + 4 * (i : ℚ))

/-- `SIZE_CHART`: one row per size, zipping the four sequences
(Python `zip` truncates to the shortest list, as does `List.zip`). -/
def SIZE_CHART : List Row :=
  ((SIZES.zip (BUST_SEQ.zip (WAIST_SEQ.zip HIP_SEQ))).map
    (fun p => ⟨p.1, p.2.1, p.2.2.1, p.2.2.2⟩))

/-- `STATURE_BINS`: height bins in insertion order, each with inclusive
lower and upper bounds in centimetres. -/
def STATURE_BINS : List (String × ℚ × ℚ) :=
  [("baixa", 150, 157), ("média", 158, 165), ("alta", 166, 181)]

/-- `min(bin_range[0] for bin_range in STATURE_BINS.values())`
(Python `min` over the nonempty list of lower bounds). -/
def min_bin_low : ℚ :=
  match STATURE_BINS.map (fun b => b.2.1) with
  | [] => 0
  | x :: xs => xs.foldl min x

/-- `max(bin_range[1] for bin_range in STATURE_BINS.values())`. -/
def max_bin_high : ℚ :=
  match STATURE_BINS.map (fun b => b.2.2) with
  | [] => 0
  | x :: xs => xs.foldl max x

/-- `classify_estatura(altura_cm)`: return the first bin whose inclusive
range contains the height; otherwise clamp below the lowest bin to
"baixa" and above the highest to "alta"; any remaining gap defaults to
"média". -/
def classify_estatura (altura_cm : ℚ) : String :=
  match STATURE_BINS.find? (fun b => decide (b.2.1 ≤ altura_cm ∧ altura_cm ≤ b.2.2)) with
  | some b => b.1
  | none =>
    if altura_cm < min_bin_low then "baixa"
    else if altura_cm > max_bin_high then "alta"
    else "média"

/-- The Boolean guard under which `classify_estatura` reaches its final
"In-between gaps: default to média" return: no bin matched, the height is
not below the lowest bin, and not above the highest bin. -/
def reaches_gap_fallback (altura_cm : ℚ) : Bool :=
  (STATURE_BINS.find? (fun b => decide (b.2.1 ≤ altura_cm ∧ altura_cm ≤ b.2.2))).isNone
    && !(decide (altura_cm < min_bin_low))
    && !(decide (altura_cm > max_bin_high))

/-- A per-category weight vector for bust, waist and hip deviations. -/
structure Weights where
  bust : ℚ
  waist : ℚ
  hip : ℚ
deriving DecidableEq, Repr

/-- `BIOTIPO_WEIGHTS`: the six body types and their weight vectors, in
insertion order. -/
def BIOTIPO_WEIGHTS : List (String × Weights) :=
  [("Retangular",          ⟨1, 1, 1⟩),
   ("Violão",              ⟨4/5, 1, 6/5⟩),
   ("Ampulheta",           ⟨6/5, 7/5, 6/5⟩),
   ("Triângulo",           ⟨4/5, 1, 7/5⟩),
   ("Triângulo invertido", ⟨7/5, 1, 4/5⟩),
   ("Oval",                ⟨1, 8/5, 1⟩)]

/-- `BIOTIPO_WEIGHTS.get(biotipo, BIOTIPO_WEIGHTS["Retangular"])`: look the
body type up in the weight table, falling back to the Retangular vector
(which is `⟨1, 1, 1⟩` in the table) for unknown labels. -/
def getWeights (biotipo : String) : Weights :=
  (BIOTIPO_WEIGHTS.lookup biotipo).getD ⟨1, 1, 1⟩

/-- A scored candidate as produced by `score_sizes`: the chart row's size
and reference measurements together with the squared weighted distance
(`dist2`; the Python code stores `sqrt dist2`). -/
structure ScoredCandidate where
  size : ℤ
  dist2 : ℚ
  bust : ℚ
  waist : ℚ
  hip : ℚ
deriving DecidableEq, Repr

/-- The squared weighted Euclidean distance of the user's measurements to
one chart row: `db² + dw² + dh²` with `db = (user_bust - row.bust) * w.bust`
and so on. -/
def dist2 (w : Weights) (user_bust user_waist user_hip : ℚ) (row : Row) : ℚ :=
  ((user_bust - row.bust) * w.bust) ^ 2
    + ((user_waist - row.waist) * w.waist) ^ 2
    + ((user_hip - row.hip) * w.hip) ^ 2

/-- The unsorted candidate list built by the loop in `score_sizes`, over an
arbitrary chart (the source closes over the global `SIZE_CHART`). -/
def scoredOver (chart : List Row) (user_bust user_waist user_hip : ℚ) (biotipo : String) :
    List ScoredCandidate :=
  let w := getWeights biotipo
  chart.map (fun row =>
    ⟨row.size, dist2 w user_bust user_waist user_hip row, row.bust, row.waist, row.hip⟩)

/-- `score_sizes` over an arbitrary chart: score every row, then sort
ascending by distance with a stable sort (Python `list.sort`); comparing
by `dist2` orders identically to comparing by `sqrt dist2`. -/
def score_sizesOver (chart : List Row) (user_bust user_waist user_hip : ℚ) (biotipo : String) :
    List ScoredCandidate :=
  (scoredOver chart user_bust user_waist user_hip biotipo).mergeSort
    (fun a b => decide (a.dist2 ≤ b.dist2))

/-- `score_sizes(user_bust, user_waist, user_hip, biotipo)` from the
source, using the global `SIZE_CHART`. -/
def score_sizes (user_bust user_waist user_hip : ℚ) (biotipo : String) :
    List ScoredCandidate :=
  score_sizesOver SIZE_CHART user_bust user_waist user_hip biotipo

/-- Python slice `l[:n]` for an arbitrary integer `n`: the first `n`
elements when `n ≥ 0`, everything but the last `|n|` elements when
`n < 0`. -/
def pysliceTo (l : List ScoredCandidate) (n : ℤ) : List ScoredCandidate :=
  if 0 ≤ n then l.take n.toNat else l.take (l.length - (-n).toNat)

/-- `suggest_size_and_top` over an arbitrary chart: `best` is
`scored[0] if scored else None`, the top list is `scored[:top_n]`. -/
def suggest_size_and_topOver (chart : List Row) (user_bust user_waist user_hip : ℚ)
    (biotipo : String) (top_n : ℤ) :
    Option ScoredCandidate × List ScoredCandidate :=
  let scored := score_sizesOver chart user_bust user_waist user_hip biotipo
  (scored.head?, pysliceTo scored top_n)

/-- `suggest_size_and_top(user_bust, user_waist, user_hip, biotipo, top_n=3)`
from the source, using the global `SIZE_CHART`. -/
def suggest_size_and_top (user_bust user_waist user_hip : ℚ) (biotipo : String)
    (top_n : ℤ := 3) : Option ScoredCandidate × List ScoredCandidate :=
  suggest_size_and_topOver SIZE_CHART user_bust user_waist user_hip biotipo top_n

/-! ### The reference table, evaluated -/

/-- The chart built from the four comprehensions, listed literally. -/
lemma SIZE_CHART_eq : SIZE_CHART =
    [⟨34, 80, 68, 86⟩, ⟨36, 84, 72, 90⟩, ⟨38, 88, 76, 94⟩, ⟨40, 92, 80, 98⟩,
     ⟨42, 96, 84, 102⟩, ⟨44, 100, 88, 106⟩, ⟨46, 104, 92, 110⟩, ⟨48, 108, 96, 114⟩,
     ⟨50, 112, 100, 118⟩, ⟨52, 116, 104, 122⟩, ⟨54, 120, 108, 126⟩, ⟨56, 124, 112, 130⟩,
     ⟨58, 128, 116, 134⟩, ⟨60, 132, 120, 138⟩, ⟨62, 136, 124, 142⟩] := by
  norm_num [SIZE_CHART, SIZES, BUST_SEQ, WAIST_SEQ, HIP_SEQ, List.range_succ]

lemma SIZE_CHART_length : SIZE_CHART.length = 15 := rfl

lemma min_bin_low_eq : min_bin_low = 150 := by
  norm_num [min_bin_low, STATURE_BINS]

lemma max_bin_high_eq : max_bin_high = 181 := by
  norm_num [max_bin_high, STATURE_BINS]

/-! ### Weight lookup -/

lemma getWeights_Retangular : getWeights "Retangular" = ⟨1, 1, 1⟩ := rfl

lemma getWeights_Oval : getWeights "Oval" = ⟨1, 8/5, 1⟩ := rfl

/-- Unknown labels fall back to the Retangular weight vector. -/
lemma getWeights_default (b : String) (h : b ∉ BIOTIPO_WEIGHTS.map Prod.fst) :
    getWeights b = ⟨1, 1, 1⟩ := by
  have hnone : BIOTIPO_WEIGHTS.lookup b = none := by
    refine List.lookup_eq_none_iff.mpr (fun p hp => ?_)
    rw [bne_iff_ne]
    intro e
    exact h (List.mem_map.mpr ⟨p, hp, e.symm⟩)
  simp [getWeights, hnone]

/-- Every weight vector the lookup can return has positive components. -/
lemma getWeights_pos (b : String) :
    0 < (getWeights b).bust ∧ 0 < (getWeights b).waist ∧ 0 < (getWeights b).hip := by
  by_cases h1 : b = "Retangular"
  · subst h1; rw [getWeights_Retangular]; norm_num
  by_cases h2 : b = "Violão"
  · subst h2; rw [show getWeights "Violão" = ⟨4/5, 1, 6/5⟩ from rfl]; norm_num
  by_cases h3 : b = "Ampulheta"
  · subst h3; rw [show getWeights "Ampulheta" = ⟨6/5, 7/5, 6/5⟩ from rfl]; norm_num
  by_cases h4 : b = "Triângulo"
  · subst h4; rw [show getWeights "Triângulo" = ⟨4/5, 1, 7/5⟩ from rfl]; norm_num
  by_cases h5 : b = "Triângulo invertido"
  · subst h5; rw [show getWeights "Triângulo invertido" = ⟨7/5, 1, 4/5⟩ from rfl]; norm_num
  by_cases h6 : b = "Oval"
  · subst h6; rw [getWeights_Oval]; norm_num
  rw [getWeights_default b (by simp [BIOTIPO_WEIGHTS, h1, h2, h3, h4, h5, h6])]
  norm_num

/-! ### The squared distance -/

lemma dist2_nonneg (w : Weights) (ub uw uh : ℚ) (row : Row) :
    0 ≤ dist2 w ub uw uh row := by
  unfold dist2; positivity

lemma dist2_eq_zero_iff (w : Weights) (ub uw uh : ℚ) (row : Row) :
    dist2 w ub uw uh row = 0 ↔
      (ub - row.bust) * w.bust = 0 ∧ (uw - row.waist) * w.waist = 0 ∧
      (uh - row.hip) * w.hip = 0 := by
  unfold dist2
  constructor
  · intro h
    refine ⟨?_, ?_, ?_⟩ <;> nlinarith [sq_nonneg ((ub - row.bust) * w.bust),
      sq_nonneg ((uw - row.waist) * w.waist), sq_nonneg ((uh - row.hip) * w.hip)]
  · rintro ⟨h1, h2, h3⟩
    rw [h1, h2, h3]; ring

lemma dist2_self (w : Weights) (row : Row) :
    dist2 w row.bust row.waist row.hip row = 0 := by
  unfold dist2; ring

/-! ### Sorting infrastructure -/

lemma distLE_trans (a b c : ScoredCandidate) :
    decide (a.dist2 ≤ b.dist2) = true → decide (b.dist2 ≤ c.dist2) = true →
    decide (a.dist2 ≤ c.dist2) = true := by
  simp only [decide_eq_true_eq]
  exact le_trans

lemma distLE_total (a b : ScoredCandidate) :
    (decide (a.dist2 ≤ b.dist2) || decide (b.dist2 ≤ a.dist2)) = true := by
  simp only [Bool.or_eq_true, decide_eq_true_eq]
  exact le_total a.dist2 b.dist2

lemma score_sizesOver_perm (chart : List Row) (ub uw uh : ℚ) (b : String) :
    score_sizesOver chart ub uw uh b ~ scoredOver chart ub uw uh b :=
  List.mergeSort_perm _ _

lemma score_sizesOver_sorted (chart : List Row) (ub uw uh : ℚ) (b : String) :
    (score_sizesOver chart ub uw uh b).Pairwise (fun x y => x.dist2 ≤ y.dist2) := by
  have h := @List.sorted_mergeSort ScoredCandidate
    (fun x y : ScoredCandidate => decide (x.dist2 ≤ y.dist2))
    distLE_trans distLE_total (scoredOver chart ub uw uh b)
  exact h.imp (fun hab => by simpa using hab)

lemma score_sizesOver_length (chart : List Row) (ub uw uh : ℚ) (b : String) :
    (score_sizesOver chart ub uw uh b).length = chart.length := by
  simp [score_sizesOver, scoredOver]

lemma mem_score_sizesOver {c : ScoredCandidate} (chart : List Row) (ub uw uh : ℚ) (b : String) :
    c ∈ score_sizesOver chart ub uw uh b ↔ c ∈ scoredOver chart ub uw uh b :=
  List.mem_mergeSort

/-- If a list is pairwise strictly increasing under a projection, members
with equal projection are equal. -/
lemma eq_of_mem_pairwise_lt {α β : Type _} [LinearOrder β] {f : α → β} {l : List α}
    (hp : l.Pairwise (fun a c => f a < f c)) {x y : α} (hx : x ∈ l) (hy : y ∈ l)
    (e : f x = f y) : x = y := by
  induction l with
  | nil => simp at hx
  | cons a t ih =>
    rcases List.mem_cons.mp hx with rfl | hx1
    · rcases List.mem_cons.mp hy with rfl | hy1
      · rfl
      · exact absurd e (ne_of_lt (List.rel_of_pairwise_cons hp hy1))
    · rcases List.mem_cons.mp hy with rfl | hy1
      · exact absurd e.symm (ne_of_lt (List.rel_of_pairwise_cons hp hx1))
      · exact ih hp.tail hx1 hy1

/-- In a list that is pairwise strictly increasing under a projection, the
member with the smaller projection comes first: the ordered pair is a
sublist. -/
lemma pair_sublist_of_lt {α β : Type _} [LinearOrder β] {f : α → β} {l : List α}
    (hp : l.Pairwise (fun a c => f a < f c)) {x y : α} (hx : x ∈ l) (hy : y ∈ l)
    (hlt : f x < f y) : [x, y] <+ l := by
  induction l with
  | nil => simp at hx
  | cons a t ih =>
    rcases List.mem_cons.mp hx with rfl | hx1
    · rcases List.mem_cons.mp hy with rfl | hy1
      · exact absurd hlt (lt_irrefl _)
      · exact List.Sublist.cons₂ x (List.singleton_sublist.mpr hy1)
    · rcases List.mem_cons.mp hy with rfl | hy1
      · exact absurd (lt_trans hlt (List.rel_of_pairwise_cons hp hx1)) (lt_irrefl _)
      · exact List.Sublist.cons a (ih hp.tail hx1 hy1)

/-- A two-element sublist locates its elements at increasing indices. -/
lemma pair_sublist_index {α : Type _} {x y : α} {l : List α} (h : [x, y] <+ l) :
    ∃ i j : Fin l.length, i < j ∧ l.get i = x ∧ l.get j = y := by
  induction l with
  | nil => simp at h
  | cons a t ih =>
    cases h with
    | cons _ h1 =>
      obtain ⟨⟨i, hi⟩, ⟨j, hj⟩, hij, hx, hy⟩ := ih h1
      refine ⟨⟨i + 1, by simpa using hi⟩, ⟨j + 1, by simpa using hj⟩, ?_, ?_, ?_⟩
      · simp only [Fin.lt_def] at hij ⊢; omega
      · simpa using hx
      · simpa using hy
    | cons₂ _ h1 =>
      have hy1 : y ∈ t := List.singleton_sublist.mp h1
      obtain ⟨⟨j, hj⟩, hyj⟩ := List.get_of_mem hy1
      refine ⟨⟨0, by simp⟩, ⟨j + 1, by simpa using hj⟩, ?_, rfl, ?_⟩
      · simp [Fin.lt_def]
      · simpa using hyj

/-- The sizes of the unsorted candidates over the default chart strictly
increase (one candidate per chart row, in chart order). -/
lemma scoredOver_size_pairwise (ub uw uh : ℚ) (b : String) :
    (scoredOver SIZE_CHART ub uw uh b).Pairwise (fun x y => x.size < y.size) := by
  have h0 : SIZE_CHART.Pairwise (fun r s => r.size < s.size) := by
    rw [SIZE_CHART_eq]; decide
  unfold scoredOver
  rw [List.pairwise_map]
  exact h0.imp (fun h => h)

lemma scoredOver_nodup (ub uw uh : ℚ) (b : String) :
    (scoredOver SIZE_CHART ub uw uh b).Nodup :=
  (scoredOver_size_pairwise ub uw uh b).imp (fun h => ne_of_apply_ne _ (ne_of_lt h))

/-- The head of a distance-sorted candidate list has minimal distance. -/
lemma head_min_of_sorted {l : List ScoredCandidate}
    (hs : l.Pairwise (fun x y => x.dist2 ≤ y.dist2)) {h0 : ScoredCandidate}
    (hh : l.head? = some h0) : ∀ c ∈ l, h0.dist2 ≤ c.dist2 := by
  cases l with
  | nil => simp at hh
  | cons a t =>
    simp only [List.head?_cons, Option.some.injEq] at hh
    subst hh
    intro c hc
    rcases List.mem_cons.mp hc with rfl | hc1
    · exact le_refl _
    · exact List.rel_of_pairwise_cons hs hc1

/-! ### Claims -/

/-- C1: for every bust, waist, hip input and every category, the sequence
returned by `score_sizes` is sorted in non-decreasing order of distance
(stated both for the squared distance stored in the candidates and for the
real distance `sqrt dist2`), and the sort is stable: among candidates with
exactly equal distance, the original reference-table order — ascending
size — is preserved. -/
theorem score_sizes_sorted_and_stable (ub uw uh : ℚ) (b : String) :
    ((score_sizes ub uw uh b).Pairwise (fun x y => x.dist2 ≤ y.dist2)) ∧
    ((score_sizes ub uw uh b).Pairwise
      (fun x y => Real.sqrt (x.dist2 : ℝ) ≤ Real.sqrt (y.dist2 : ℝ))) ∧
    (∀ i j : Fin (score_sizes ub uw uh b).length, i < j →
      ((score_sizes ub uw uh b).get i).dist2 = ((score_sizes ub uw uh b).get j).dist2 →
      ((score_sizes ub uw uh b).get i).size < ((score_sizes ub uw uh b).get j).size) := by
  have hsorted := score_sizesOver_sorted SIZE_CHART ub uw uh b
  refine ⟨hsorted, hsorted.imp (fun hxy => Real.sqrt_le_sqrt (by exact_mod_cast hxy)), ?_⟩
  intro i j hij heq
  have hperm : List.Perm (score_sizes ub uw uh b) (scoredOver SIZE_CHART ub uw uh b) :=
    score_sizesOver_perm SIZE_CHART ub uw uh b
  have hpw := scoredOver_size_pairwise ub uw uh b
  have hnodup : (score_sizes ub uw uh b).Nodup :=
    hperm.nodup_iff.mpr (scoredOver_nodup ub uw uh b)
  have hxm : (score_sizes ub uw uh b).get j ∈ scoredOver SIZE_CHART ub uw uh b :=
    hperm.mem_iff.mp (List.mem_iff_get.mpr ⟨j, rfl⟩)
  have hym : (score_sizes ub uw uh b).get i ∈ scoredOver SIZE_CHART ub uw uh b :=
    hperm.mem_iff.mp (List.mem_iff_get.mpr ⟨i, rfl⟩)
  rcases lt_trichotomy (((score_sizes ub uw uh b).get j).size)
      (((score_sizes ub uw uh b).get i).size) with hlt | hEq | hgt
  · exfalso
    have hsub : List.Sublist [(score_sizes ub uw uh b).get j, (score_sizes ub uw uh b).get i]
        (scoredOver SIZE_CHART ub uw uh b) :=
      pair_sublist_of_lt hpw hxm hym hlt
    have hle : decide (((score_sizes ub uw uh b).get j).dist2 ≤
        ((score_sizes ub uw uh b).get i).dist2) = true := by
      rw [heq]; simp
    have hsub2 : List.Sublist [(score_sizes ub uw uh b).get j, (score_sizes ub uw uh b).get i]
        (score_sizes ub uw uh b) :=
      List.pair_sublist_mergeSort distLE_trans distLE_total hle hsub
    obtain ⟨i2, j2, hij2, hxi, hyj⟩ := pair_sublist_index hsub2
    have e1 : i2 = j := (List.Nodup.get_inj_iff hnodup).mp hxi
    have e2 : j2 = i := (List.Nodup.get_inj_iff hnodup).mp hyj
    rw [e1, e2] at hij2
    exact absurd (lt_trans hij hij2) (lt_irrefl _)
  · exfalso
    have hxy : (score_sizes ub uw uh b).get j = (score_sizes ub uw uh b).get i :=
      eq_of_mem_pairwise_lt hpw hxm hym hEq
    have e3 : j = i := (List.Nodup.get_inj_iff hnodup).mp hxy
    rw [e3] at hij
    exact absurd hij (lt_irrefl _)
  · exact hgt

lemma SIZE_CHART_bust_pairwise : SIZE_CHART.Pairwise (fun r s => r.bust < s.bust) := by
  rw [SIZE_CHART_eq]; decide

/-- Membership in a `score_sizes` result characterised by the chart rows. -/
lemma mem_score_sizes_iff {c : ScoredCandidate} (ub uw uh : ℚ) (b : String) :
    c ∈ score_sizes ub uw uh b ↔
      ∃ r ∈ SIZE_CHART,
        c = ⟨r.size, dist2 (getWeights b) ub uw uh r, r.bust, r.waist, r.hip⟩ := by
  rw [score_sizes, mem_score_sizesOver]
  simp only [scoredOver]
  rw [List.mem_map]
  constructor
  · rintro ⟨r, hr, rfl⟩; exact ⟨r, hr, rfl⟩
  · rintro ⟨r, hr, rfl⟩; exact ⟨r, hr, rfl⟩

/-- Scoring a chart row at its own measurements puts that row's candidate,
with distance zero, at the head of the result. -/
lemma score_sizes_head_exact (b : String) (row : Row) (hrow : row ∈ SIZE_CHART) :
    (score_sizes row.bust row.waist row.hip b).head? =
      some ⟨row.size, 0, row.bust, row.waist, row.hip⟩ := by
  have hw := getWeights_pos b
  have hc0 : (⟨row.size, 0, row.bust, row.waist, row.hip⟩ : ScoredCandidate) ∈
      score_sizes row.bust row.waist row.hip b :=
    (mem_score_sizes_iff row.bust row.waist row.hip b).mpr
      ⟨row, hrow, by simp [dist2_self]⟩
  rcases hhead : (score_sizes row.bust row.waist row.hip b).head? with _ | h0
  · exfalso
    rw [List.head?_eq_none_iff.mp hhead] at hc0
    simp at hc0
  · have hm : h0 ∈ score_sizes row.bust row.waist row.hip b :=
      List.mem_of_mem_head? (Option.mem_def.mpr hhead)
    have hmin := head_min_of_sorted (score_sizesOver_sorted SIZE_CHART row.bust row.waist
      row.hip b) hhead _ hc0
    obtain ⟨r, hr, rfl⟩ := (mem_score_sizes_iff row.bust row.waist row.hip b).mp hm
    have hz : dist2 (getWeights b) row.bust row.waist row.hip r = 0 :=
      le_antisymm hmin (dist2_nonneg _ _ _ _ _)
    obtain ⟨hz1, hz2, hz3⟩ := (dist2_eq_zero_iff _ _ _ _ _).mp hz
    have hbust : r.bust = row.bust := by
      rcases mul_eq_zero.mp hz1 with h | h
      · linarith [sub_eq_zero.mp h]
      · exact absurd h (ne_of_gt hw.1)
    have hrr : r = row :=
      eq_of_mem_pairwise_lt SIZE_CHART_bust_pairwise hr hrow hbust
    subst hrr
    simp [hz]

/-- C2: for every category and every entry of the reference table, scoring
that entry's exact bust/waist/hip triple yields the candidate for that
entry with distance exactly 0 as the best (first) match; moreover, on any
input no returned squared distance (hence no distance) is negative, and
distance 0 occurs exactly when all three weighted deltas are zero. -/
theorem score_sizes_exact_match_zero (b : String) (row : Row) (hrow : row ∈ SIZE_CHART) :
    (score_sizes row.bust row.waist row.hip b).head? =
      some ⟨row.size, 0, row.bust, row.waist, row.hip⟩ ∧
    (∀ ub uw uh : ℚ, ∀ c ∈ score_sizes ub uw uh b,
      0 ≤ c.dist2 ∧ 0 ≤ Real.sqrt (c.dist2 : ℝ) ∧
      (c.dist2 = 0 ↔ ((ub - c.bust) * (getWeights b).bust = 0 ∧
                      (uw - c.waist) * (getWeights b).waist = 0 ∧
                      (uh - c.hip) * (getWeights b).hip = 0)) ∧
      (Real.sqrt (c.dist2 : ℝ) = 0 ↔ ((ub - c.bust) * (getWeights b).bust = 0 ∧
                      (uw - c.waist) * (getWeights b).waist = 0 ∧
                      (uh - c.hip) * (getWeights b).hip = 0))) := by
  refine ⟨score_sizes_head_exact b row hrow, ?_⟩
  intro ub uw uh c hc
  obtain ⟨r, hr, rfl⟩ := (mem_score_sizes_iff ub uw uh b).mp hc
  have hnn := dist2_nonneg (getWeights b) ub uw uh r
  have hiff := dist2_eq_zero_iff (getWeights b) ub uw uh r
  refine ⟨hnn, Real.sqrt_nonneg _, hiff, ?_⟩
  rw [Real.sqrt_eq_zero (by exact_mod_cast hnn), Rat.cast_eq_zero]
  exact hiff

/-- C3: an unrecognized category label silently falls back to the default
category Retangular: the scored result is identical, and the function is
total (no error path exists). -/
theorem score_sizes_unknown_fallback (ub uw uh : ℚ) (b : String)
    (h : b ∉ BIOTIPO_WEIGHTS.map Prod.fst) :
    score_sizes ub uw uh b = score_sizes ub uw uh "Retangular" := by
  simp only [score_sizes, score_sizesOver, scoredOver]
  rw [getWeights_default b h, getWeights_Retangular]

/-- C3 witness: the unknown label "Unknown" scores exactly like
"Retangular" at the spec's concrete input. -/
theorem score_sizes_unknown_fallback_witness :
    score_sizes 90 74 98 "Unknown" = score_sizes 90 74 98 "Retangular" :=
  score_sizes_unknown_fallback 90 74 98 "Unknown" (by decide)

/-- C4: over any chart, `suggest_size_and_top` returns no best candidate
exactly when the chart is empty (the fixed table is nonempty, so this
never happens in the program); the best candidate is the head of the full
distance-sorted sequence, and for nonnegative `top_n` the returned list
has length `min top_n tableSize`. -/
theorem suggest_size_and_top_spec (chart : List Row) (ub uw uh : ℚ) (b : String)
    (top_n : ℤ) (hn : 0 ≤ top_n) :
    ((suggest_size_and_topOver chart ub uw uh b top_n).1 = none ↔ chart = []) ∧
    (suggest_size_and_topOver chart ub uw uh b top_n).1 =
      (score_sizesOver chart ub uw uh b).head? ∧
    (suggest_size_and_topOver chart ub uw uh b top_n).2.length =
      min top_n.toNat chart.length := by
  refine ⟨?_, rfl, ?_⟩
  · rw [show (suggest_size_and_topOver chart ub uw uh b top_n).1 =
        (score_sizesOver chart ub uw uh b).head? from rfl]
    rw [List.head?_eq_none_iff]
    constructor
    · intro h
      have hl := score_sizesOver_length chart ub uw uh b
      rw [h] at hl
      exact List.length_eq_zero.mp hl.symm
    · intro h; subst h; simp [score_sizesOver, scoredOver]
  · show (pysliceTo (score_sizesOver chart ub uw uh b) top_n).length = _
    rw [pysliceTo, if_pos hn, List.length_take, score_sizesOver_length]

/-- C4 witness: with the program's fixed 15-row chart and `top_n = 3`. -/
theorem suggest_size_and_top_spec_witness :
    ((suggest_size_and_topOver SIZE_CHART 90 74 98 "Retangular" 3).1 = none ↔
      SIZE_CHART = []) ∧
    (suggest_size_and_topOver SIZE_CHART 90 74 98 "Retangular" 3).1 =
      (score_sizesOver SIZE_CHART 90 74 98 "Retangular").head? ∧
    (suggest_size_and_topOver SIZE_CHART 90 74 98 "Retangular" 3).2.length =
      min (3 : ℤ).toNat SIZE_CHART.length :=
  suggest_size_and_top_spec SIZE_CHART 90 74 98 "Retangular" 3 (by decide)

/-! ### Height classification -/

lemma classify_bin1 {h : ℚ} (h1 : 150 ≤ h) (h2 : h ≤ 157) :
    classify_estatura h = "baixa" := by
  unfold classify_estatura STATURE_BINS
  rw [List.find?_cons_of_pos _ (by simp [h1, h2])]

lemma classify_bin2 {h : ℚ} (h1 : 158 ≤ h) (h2 : h ≤ 165) :
    classify_estatura h = "média" := by
  unfold classify_estatura STATURE_BINS
  rw [List.find?_cons_of_neg _ (by simp; intro c; linarith),
    List.find?_cons_of_pos _ (by simp [h1, h2])]

lemma classify_bin3 {h : ℚ} (h1 : 166 ≤ h) (h2 : h ≤ 181) :
    classify_estatura h = "alta" := by
  unfold classify_estatura STATURE_BINS
  rw [List.find?_cons_of_neg _ (by simp; intro c; linarith),
    List.find?_cons_of_neg _ (by simp; intro c; linarith),
    List.find?_cons_of_pos _ (by simp [h1, h2])]

lemma classify_below {h : ℚ} (h0 : h < 150) : classify_estatura h = "baixa" := by
  unfold classify_estatura STATURE_BINS
  rw [List.find?_cons_of_neg _ (by simp; intro c; linarith),
    List.find?_cons_of_neg _ (by simp; intro c; linarith),
    List.find?_cons_of_neg _ (by simp; intro c; linarith)]
  simp only [List.find?_nil]
  rw [min_bin_low_eq, if_pos h0]

lemma classify_above {h : ℚ} (h0 : 181 < h) : classify_estatura h = "alta" := by
  unfold classify_estatura STATURE_BINS
  rw [List.find?_cons_of_neg _ (by simp; intro c; linarith),
    List.find?_cons_of_neg _ (by simp; intro c; linarith),
    List.find?_cons_of_neg _ (by simp; intro c; linarith)]
  simp only [List.find?_nil]
  rw [min_bin_low_eq, max_bin_high_eq, if_neg (by linarith), if_pos h0]

/-- The gap-fallback guard holds exactly on the two open gaps between
consecutive bins. -/
lemma reaches_gap_fallback_iff (h : ℚ) :
    reaches_gap_fallback h = true ↔ ((157 < h ∧ h < 158) ∨ (165 < h ∧ h < 166)) := by
  constructor
  · intro hc
    unfold reaches_gap_fallback at hc
    simp only [Bool.and_eq_true, Bool.not_eq_true', Option.isNone_iff_eq_none,
      decide_eq_false_iff_not] at hc
    obtain ⟨⟨hfind, hlow⟩, hhigh⟩ := hc
    rw [List.find?_eq_none] at hfind
    have n1 := hfind ("baixa", (150:ℚ), (157:ℚ)) (by unfold STATURE_BINS; simp)
    have n2 := hfind ("média", (158:ℚ), (165:ℚ)) (by unfold STATURE_BINS; simp)
    have n3 := hfind ("alta", (166:ℚ), (181:ℚ)) (by unfold STATURE_BINS; simp)
    rw [min_bin_low_eq] at hlow
    rw [max_bin_high_eq] at hhigh
    simp only [decide_eq_true_eq] at n1 n2 n3
    push_neg at n1 n2 n3 hlow hhigh
    have g1 : 157 < h := n1 hlow
    rcases lt_or_le h 158 with c | c
    · exact Or.inl ⟨g1, c⟩
    · have g2 : 165 < h := n2 c
      rcases lt_or_le h 166 with d | d
      · exact Or.inr ⟨g2, d⟩
      · exact absurd hhigh (not_le.mpr (n3 d))
  · intro hg
    have hfind : STATURE_BINS.find? (fun bin => decide (bin.2.1 ≤ h ∧ h ≤ bin.2.2)) = none := by
      rw [List.find?_eq_none]
      intro x hx
      unfold STATURE_BINS at hx
      simp only [List.mem_cons, List.not_mem_nil, or_false] at hx
      simp only [decide_eq_true_eq]
      rcases hx with rfl | rfl | rfl <;> rcases hg with ⟨g1, g2⟩ | ⟨g1, g2⟩ <;>
        (rintro ⟨c1, c2⟩; simp only [] at c1 c2; linarith)
    unfold reaches_gap_fallback
    rw [hfind, min_bin_low_eq, max_bin_high_eq]
    simp only [Option.isNone_none, Bool.true_and, Bool.and_eq_true, Bool.not_eq_true',
      decide_eq_false_iff_not, not_lt]
    rcases hg with ⟨g1, g2⟩ | ⟨g1, g2⟩ <;> exact ⟨by linarith, by linarith⟩

/-- When the gap-fallback guard holds the function returns "média" through
the final fallback branch. -/
lemma classify_of_gap {h : ℚ} (hc : reaches_gap_fallback h = true) :
    classify_estatura h = "média" := by
  unfold reaches_gap_fallback at hc
  simp only [Bool.and_eq_true, Bool.not_eq_true', Option.isNone_iff_eq_none,
    decide_eq_false_iff_not] at hc
  obtain ⟨⟨hfind, hlow⟩, hhigh⟩ := hc
  unfold classify_estatura
  rw [hfind, if_neg hlow, if_neg hhigh]

/-- No integer height reaches the gap fallback. -/
lemma reaches_gap_fallback_int (n : ℤ) : reaches_gap_fallback (n : ℚ) = false := by
  by_contra hne
  have ht : reaches_gap_fallback (n : ℚ) = true := Bool.ne_false_iff.mp hne
  rcases (reaches_gap_fallback_iff _).mp ht with ⟨g1, g2⟩ | ⟨g1, g2⟩
  · have e1 : (157:ℤ) < n := by exact_mod_cast g1
    have e2 : n < (158:ℤ) := by exact_mod_cast g2
    omega
  · have e1 : (165:ℤ) < n := by exact_mod_cast g1
    have e2 : n < (166:ℤ) := by exact_mod_cast g2
    omega

/-- C5: `classify_estatura` realises the three inclusive bins
baixa = [150,157], média = [158,165], alta = [166,181], returns "baixa"
strictly below 150 and "alta" strictly above 181, and (being a total Lean
function over ℚ) is total; the spec's six concrete boundary values hold. -/
theorem classify_estatura_bins_spec :
    (∀ h : ℚ, 150 ≤ h → h ≤ 157 → classify_estatura h = "baixa") ∧
    (∀ h : ℚ, 158 ≤ h → h ≤ 165 → classify_estatura h = "média") ∧
    (∀ h : ℚ, 166 ≤ h → h ≤ 181 → classify_estatura h = "alta") ∧
    (∀ h : ℚ, h < 150 → classify_estatura h = "baixa") ∧
    (∀ h : ℚ, 181 < h → classify_estatura h = "alta") ∧
    classify_estatura 157 = "baixa" ∧ classify_estatura 158 = "média" ∧
    classify_estatura 165 = "média" ∧ classify_estatura 166 = "alta" ∧
    classify_estatura 100 = "baixa" ∧ classify_estatura 200 = "alta" := by
  refine ⟨fun h h1 h2 => classify_bin1 h1 h2, fun h h1 h2 => classify_bin2 h1 h2,
    fun h h1 h2 => classify_bin3 h1 h2, fun h h0 => classify_below h0,
    fun h h0 => classify_above h0,
    classify_bin1 (by norm_num) (by norm_num), classify_bin2 (by norm_num) (by norm_num),
    classify_bin2 (by norm_num) (by norm_num), classify_bin3 (by norm_num) (by norm_num),
    classify_below (by norm_num), classify_above (by norm_num)⟩

/-- C5 witness: the boundary value 157 lies in the first bin. -/
theorem classify_estatura_bins_spec_witness : classify_estatura 157 = "baixa" :=
  classify_estatura_bins_spec.1 157 (by norm_num) (by norm_num)

/-- C6 counterexample: the gap fallback of `classify_estatura` is NOT
unreachable — the non-integer height 157.5 (= 315/2 cm) satisfies no bin,
is not below 150, is not above 181, and is classified "média" through the
final fallback branch. -/
theorem gap_fallback_reachable_at_157_5 :
    reaches_gap_fallback (315/2) = true ∧ classify_estatura (315/2) = "média" := by
  have ht : reaches_gap_fallback ((315:ℚ)/2) = true :=
    (reaches_gap_fallback_iff _).mpr (Or.inl ⟨by norm_num, by norm_num⟩)
  exact ⟨ht, classify_of_gap ht⟩

/-- C6 (amended): the gap fallback is reachable exactly on the two open
gaps (157,158) and (165,166) left between the real-valued bins; there it
returns "média"; it is unreachable for every integer height. -/
theorem gap_fallback_characterisation :
    (∀ h : ℚ, reaches_gap_fallback h = true ↔ ((157 < h ∧ h < 158) ∨ (165 < h ∧ h < 166))) ∧
    (∀ h : ℚ, reaches_gap_fallback h = true → classify_estatura h = "média") ∧
    (∀ n : ℤ, reaches_gap_fallback (n : ℚ) = false) :=
  ⟨reaches_gap_fallback_iff, fun _ hc => classify_of_gap hc, reaches_gap_fallback_int⟩

/-- C6 witness: no integer height (e.g. 160) reaches the gap fallback. -/
theorem gap_fallback_characterisation_witness :
    reaches_gap_fallback ((160 : ℤ) : ℚ) = false :=
  gap_fallback_characterisation.2.2 160

/-- C7: the per-candidate distance is monotone in each weight axis: if two
weight vectors agree on two axes and the second weights the remaining axis
at least as much (nonnegatively), the squared distance — and hence the
distance — does not decrease; in particular every candidate's distance
under "Oval" dominates its distance under "Retangular". -/
theorem dist2_weight_monotone :
    (∀ (ub uw uh : ℚ) (row : Row) (w1 w2 : Weights),
      w1.waist = w2.waist → w1.hip = w2.hip → 0 ≤ w1.bust → w1.bust ≤ w2.bust →
        dist2 w1 ub uw uh row ≤ dist2 w2 ub uw uh row) ∧
    (∀ (ub uw uh : ℚ) (row : Row) (w1 w2 : Weights),
      w1.bust = w2.bust → w1.hip = w2.hip → 0 ≤ w1.waist → w1.waist ≤ w2.waist →
        dist2 w1 ub uw uh row ≤ dist2 w2 ub uw uh row) ∧
    (∀ (ub uw uh : ℚ) (row : Row) (w1 w2 : Weights),
      w1.bust = w2.bust → w1.waist = w2.waist → 0 ≤ w1.hip → w1.hip ≤ w2.hip →
        dist2 w1 ub uw uh row ≤ dist2 w2 ub uw uh row) ∧
    (∀ (ub uw uh : ℚ) (row : Row),
      dist2 (getWeights "Retangular") ub uw uh row ≤
        dist2 (getWeights "Oval") ub uw uh row ∧
      Real.sqrt ((dist2 (getWeights "Retangular") ub uw uh row : ℚ) : ℝ) ≤
        Real.sqrt ((dist2 (getWeights "Oval") ub uw uh row : ℚ) : ℝ)) := by
  have axis_bust : ∀ (ub uw uh : ℚ) (row : Row) (w1 w2 : Weights),
      w1.waist = w2.waist → w1.hip = w2.hip → 0 ≤ w1.bust → w1.bust ≤ w2.bust →
      dist2 w1 ub uw uh row ≤ dist2 w2 ub uw uh row := by
    intro ub uw uh row w1 w2 e1 e2 h0 h12
    unfold dist2
    rw [e1, e2]
    have hb : ((ub - row.bust) * w1.bust) ^ 2 ≤ ((ub - row.bust) * w2.bust) ^ 2 := by
      rw [mul_pow, mul_pow]
      exact mul_le_mul_of_nonneg_left (pow_le_pow_left₀ h0 h12 2) (sq_nonneg _)
    linarith
  have axis_waist : ∀ (ub uw uh : ℚ) (row : Row) (w1 w2 : Weights),
      w1.bust = w2.bust → w1.hip = w2.hip → 0 ≤ w1.waist → w1.waist ≤ w2.waist →
      dist2 w1 ub uw uh row ≤ dist2 w2 ub uw uh row := by
    intro ub uw uh row w1 w2 e1 e2 h0 h12
    unfold dist2
    rw [e1, e2]
    have hw : ((uw - row.waist) * w1.waist) ^ 2 ≤ ((uw - row.waist) * w2.waist) ^ 2 := by
      rw [mul_pow, mul_pow]
      exact mul_le_mul_of_nonneg_left (pow_le_pow_left₀ h0 h12 2) (sq_nonneg _)
    linarith
  have axis_hip : ∀ (ub uw uh : ℚ) (row : Row) (w1 w2 : Weights),
      w1.bust = w2.bust → w1.waist = w2.waist → 0 ≤ w1.hip → w1.hip ≤ w2.hip →
      dist2 w1 ub uw uh row ≤ dist2 w2 ub uw uh row := by
    intro ub uw uh row w1 w2 e1 e2 h0 h12
    unfold dist2
    rw [e1, e2]
    have hh : ((uh - row.hip) * w1.hip) ^ 2 ≤ ((uh - row.hip) * w2.hip) ^ 2 := by
      rw [mul_pow, mul_pow]
      exact mul_le_mul_of_nonneg_left (pow_le_pow_left₀ h0 h12 2) (sq_nonneg _)
    linarith
  refine ⟨axis_bust, axis_waist, axis_hip, ?_⟩
  intro ub uw uh row
  have hle : dist2 (getWeights "Retangular") ub uw uh row ≤
      dist2 (getWeights "Oval") ub uw uh row := by
    rw [getWeights_Retangular, getWeights_Oval]
    exact axis_waist ub uw uh row ⟨1, 1, 1⟩ ⟨1, 8/5, 1⟩ rfl rfl (by norm_num) (by norm_num)
  exact ⟨hle, Real.sqrt_le_sqrt (by exact_mod_cast hle)⟩

/-- C7 witness: the Oval distance dominates the Retangular distance at the
chart's first row and the spec's concrete measurements. -/
theorem dist2_weight_monotone_witness :
    dist2 (getWeights "Retangular") 90 74 98 ⟨34, 80, 68, 86⟩ ≤
      dist2 (getWeights "Oval") 90 74 98 ⟨34, 80, 68, 86⟩ :=
  (dist2_weight_monotone.2.2.2 90 74 98 ⟨34, 80, 68, 86⟩).1

/-- C8: scoring yields one candidate per chart row (15 for the program's
fixed table), and the top-3 wrapper returns exactly 3 candidates whenever
the chart has at least 3 entries (unconditionally for the fixed table). -/
theorem score_sizes_cardinality (chart : List Row) (ub uw uh : ℚ) (b : String) :
    (score_sizesOver chart ub uw uh b).length = chart.length ∧
    (score_sizes ub uw uh b).length = 15 ∧
    (3 ≤ chart.length → (suggest_size_and_topOver chart ub uw uh b 3).2.length = 3) ∧
    (suggest_size_and_top ub uw uh b 3).2.length = 3 := by
  have h1 := score_sizesOver_length chart ub uw uh b
  have h2 : (score_sizes ub uw uh b).length = 15 := by
    rw [score_sizes, score_sizesOver_length, SIZE_CHART_length]
  refine ⟨h1, h2, ?_, ?_⟩
  · intro hc
    show (pysliceTo (score_sizesOver chart ub uw uh b) 3).length = 3
    rw [pysliceTo, if_pos (by norm_num), List.length_take, h1]
    omega
  · show (pysliceTo (score_sizes ub uw uh b) 3).length = 3
    rw [pysliceTo, if_pos (by norm_num), List.length_take, h2]
    omega

/-- C8 witness: the top-3 list over the fixed 15-row chart has exactly 3
entries. -/
theorem score_sizes_cardinality_witness :
    (suggest_size_and_topOver SIZE_CHART 90 74 98 "Retangular" 3).2.length = 3 :=
  (score_sizes_cardinality SIZE_CHART 90 74 98 "Retangular").2.2.1 (by decide)

lemma head?_take {α : Type _} {l : List α} {n : ℕ} (h : 1 ≤ n) :
    (l.take n).head? = l.head? := by
  cases l with
  | nil => simp
  | cons a t =>
    cases n with
    | zero => omega
    | succ m => simp

/-- C9: for every `top_n ≥ 1` the best candidate is exactly the head of
the returned top list; with `top_n = 0` the top list is empty while the
best candidate is still the minimal-distance candidate. -/
theorem suggest_best_is_head_of_top (ub uw uh : ℚ) (b : String) :
    (∀ top_n : ℤ, 1 ≤ top_n →
      (suggest_size_and_top ub uw uh b top_n).2.head? =
        (suggest_size_and_top ub uw uh b top_n).1) ∧
    (suggest_size_and_top ub uw uh b 0).2 = [] ∧
    (∃ c, (suggest_size_and_top ub uw uh b 0).1 = some c ∧
      ∀ d ∈ score_sizes ub uw uh b, c.dist2 ≤ d.dist2) := by
  have hlen : (score_sizes ub uw uh b).length = 15 := by
    rw [score_sizes, score_sizesOver_length, SIZE_CHART_length]
  refine ⟨?_, ?_, ?_⟩
  · intro t ht
    show (pysliceTo (score_sizes ub uw uh b) t).head? = (score_sizes ub uw uh b).head?
    rw [pysliceTo, if_pos (by omega)]
    exact head?_take (by omega)
  · show pysliceTo (score_sizes ub uw uh b) 0 = []
    rw [pysliceTo, if_pos le_rfl]
    simp
  · cases hl : score_sizes ub uw uh b with
    | nil => rw [hl] at hlen; simp at hlen
    | cons a t =>
      refine ⟨a, ?_, ?_⟩
      · show (score_sizes ub uw uh b).head? = some a
        rw [hl]; rfl
      · intro d hd
        have hh : (score_sizes ub uw uh b).head? = some a := by rw [hl]; rfl
        rw [← hl] at hd
        exact head_min_of_sorted (score_sizesOver_sorted SIZE_CHART ub uw uh b) hh d hd

/-- C9 witness: with `top_n = 3` the best candidate heads the top list. -/
theorem suggest_best_is_head_of_top_witness :
    (suggest_size_and_top 90 74 98 "Retangular" 3).2.head? =
      (suggest_size_and_top 90 74 98 "Retangular" 3).1 :=
  (suggest_best_is_head_of_top 90 74 98 "Retangular").1 3 (by decide)

/-- C10: for negative `top_n` the Python slice `scored[:top_n]` keeps all
but the last `|top_n|` candidates: the result is the sorted sequence
truncated to `(15 + top_n).toNat` elements (so `top_n = -1` yields 14). -/
theorem suggest_negative_topn (ub uw uh : ℚ) (b : String) (top_n : ℤ)
    (hn : top_n < 0) :
    (suggest_size_and_top ub uw uh b top_n).2 =
      (score_sizes ub uw uh b).take ((15 + top_n).toNat) ∧
    (suggest_size_and_top ub uw uh b top_n).2.length = (15 + top_n).toNat := by
  have hlen : (score_sizes ub uw uh b).length = 15 := by
    rw [score_sizes, score_sizesOver_length, SIZE_CHART_length]
  have h2 : (suggest_size_and_top ub uw uh b top_n).2 =
      (score_sizes ub uw uh b).take ((15 + top_n).toNat) := by
    show pysliceTo (score_sizes ub uw uh b) top_n = _
    rw [pysliceTo, if_neg (by omega), hlen]
    congr 1
    omega
  refine ⟨h2, ?_⟩
  rw [h2, List.length_take, hlen]
  omega

/-- C10 witness: `top_n = -1` yields 14 of the 15 candidates. -/
theorem suggest_negative_topn_witness :
    (suggest_size_and_top 90 74 98 "Retangular" (-1)).2.length = ((15 : ℤ) + (-1)).toNat :=
  (suggest_negative_topn 90 74 98 "Retangular" (-1) (by decide)).2

/-- C1 witness: the sortedness of the scored sequence at the spec's
concrete input. -/
theorem score_sizes_sorted_and_stable_witness :
    (score_sizes 90 74 98 "Retangular").Pairwise (fun x y => x.dist2 ≤ y.dist2) :=
  (score_sizes_sorted_and_stable 90 74 98 "Retangular").1

/-- C2 witness: scoring the first chart row's own measurements puts that
row's candidate, at distance 0, at the head of the result. -/
theorem score_sizes_exact_match_zero_witness :
    (score_sizes 80 68 86 "Retangular").head? = some ⟨34, 0, 80, 68, 86⟩ :=
  (score_sizes_exact_match_zero "Retangular" ⟨34, 80, 68, 86⟩
    (by rw [SIZE_CHART_eq]; exact List.mem_cons_self _ _)).1
